import Mathlib

/-!
Shallow embedding of the Blog_Application_API post store
(src/backend/backend_app.py): an in-memory list of posts, an id counter,
and the five request handlers (list/sort, create, delete, update, search).

JSON request bodies are modelled by `Body`: an optional record carrying the
two fields the handlers ever read (`none` at the outer level stands for an
absent or malformed body, i.e. `request.get_json()` returning `None`;
`none` at a field stands for the key being absent from the JSON object).
Query parameters are modelled by `Option String` (`none` = parameter absent).
-/

/-- A blog post record: `{"id": ..., "title": ..., "content": ...}`. -/
structure Post where
  id : Nat
  title : String
  content : String
deriving Repr, DecidableEq

/-- The module-level mutable state: the `POSTS` list and the `next_id` counter. -/
structure AppState where
  posts : List Post
  next_id : Nat
deriving Repr, DecidableEq

/-- The seed state: two posts, counter at 3. -/
def initialState : AppState :=
  { posts := [{ id := 1, title := "First post", content := "This is the first post." },
              { id := 2, title := "Second post", content := "This is the second post." }],
    next_id := 3 }

/-- A parsed JSON body, restricted to the two keys the handlers read.
`title = none` models `"title" not in data`; likewise for `content`.
(A body that is an empty dict is falsy in Python, so `not data` fires, but the
resulting missing-field list is the same as when both keys are merely absent.) -/
structure Body where
  title : Option String
  content : Option String
deriving Repr, DecidableEq

/-- The error taxonomy of the five handlers (each surfaced as a 400/404 JSON error). -/
inductive ApiError where
  | InvalidSortField
  | InvalidDirection
  | MissingFields (fields : List String)
  | InvalidBody
  | PostNotFound (id : Nat)
deriving Repr, DecidableEq

/-- Python truthiness of an optional string: `None` and `""` are falsy. -/
def strTruthy : Option String → Bool
  | none => false
  | some s => !(s == "")

/-- `needle in hay` on Python strings: substring containment. -/
def strContains (hay : String) (needle : String) : Bool :=
  decide (needle.data <:+: hay.data)

/-- `x[field]` for the two reachable keys (`get_posts` only sorts by a key it
has already validated to be `"title"` or `"content"`). -/
def fieldVal (x : Post) (field : String) : String :=
  if field == "title" then x.title else x.content

/-- The comparison `sorted(..., key=..., reverse=...)` sorts by: ascending on
the key, or descending when `reverse` is set. -/
def pyLe (key : Post → String) (reverse : Bool) (a b : Post) : Bool :=
  if reverse then decide (key b ≤ key a) else decide (key a ≤ key b)

/-- Python's `sorted(l, key=key, reverse=reverse)`: a stable sort returning a
new list (it never mutates its argument). -/
def pysorted (l : List Post) (key : Post → String) (reverse : Bool) : List Post :=
  l.mergeSort (pyLe key reverse)

/-- `GET /api/posts` (`get_posts`): validates `sort` then `direction`, then
returns the posts, sorted case-insensitively by the chosen field when a
truthy `sort` is given. The state is returned unchanged (the handler never
reassigns `POSTS`). -/
def get_posts (st : AppState) (sort_field : Option String) (direction_param : Option String) :
    Except ApiError (List Post) × AppState :=
  let direction := direction_param.getD "asc"
  if strTruthy sort_field && !(["title", "content"].contains (sort_field.getD "")) then
    (.error .InvalidSortField, st)
  else if !(["asc", "desc"].contains direction) then
    (.error .InvalidDirection, st)
  else
    let sorted_posts :=
      if strTruthy sort_field then
        pysorted st.posts (fun x => (fieldVal x (sort_field.getD "")).toLower)
          (direction == "desc")
      else st.posts
    (.ok sorted_posts, st)

/-- `POST /api/posts` (`create_post`): reports missing fields (title before
content), otherwise appends `{id: next_id, title, content}` and bumps the
counter. `data.bind Body.title = none` captures `not data or "title" not in
data` (for a falsy empty dict the same two-element missing list results). -/
def create_post (st : AppState) (data : Option Body) : Except ApiError Post × AppState :=
  match data.bind Body.title, data.bind Body.content with
  | some t, some c =>
    let new_post : Post := { id := st.next_id, title := t, content := c }
    (.ok new_post, { posts := st.posts ++ [new_post], next_id := st.next_id + 1 })
  | t?, c? =>
    let missing_fields : List String :=
      (if t?.isNone then ["title"] else []) ++ (if c?.isNone then ["content"] else [])
    (.error (.MissingFields missing_fields), st)

/-- `DELETE /api/posts/<post_id>` (`delete_post`): 404 when no post matches,
otherwise rebuilds `POSTS` without the posts carrying that id and confirms
with the deleted id. The counter is untouched. -/
def delete_post (st : AppState) (post_id : Nat) : Except ApiError Nat × AppState :=
  match st.posts.find? (fun post => post.id == post_id) with
  | none => (.error (.PostNotFound post_id), st)
  | some _ => (.ok post_id, { st with posts := st.posts.filter (fun post => !(post.id == post_id)) })

/-- The `for post in POSTS` loop of `update_post`: walks the list, mutates the
first post whose id matches (`data.get(k, post[k])` keeps the old value when
the key is absent) and returns it; reports `none` when no post matched. -/
def updateLoop (post_id : Nat) (data : Body) : List Post → Option Post × List Post
  | [] => (none, [])
  | post :: rest =>
    if post.id == post_id then
      let updated : Post :=
        { post with title := data.title.getD post.title,
                    content := data.content.getD post.content }
      (some updated, updated :: rest)
    else
      let r := updateLoop post_id data rest
      (r.1, post :: r.2)

/-- `PUT /api/posts/<post_id>` (`update_post`): rejects an absent/malformed
body before any lookup, then updates the matching post in place or 404s. -/
def update_post (st : AppState) (post_id : Nat) : Option Body → Except ApiError Post × AppState
  | none => (.error .InvalidBody, st)
  | some d =>
    match updateLoop post_id d st.posts with
    | (some updated, new_posts) => (.ok updated, { st with posts := new_posts })
    | (none, _) => (.error (.PostNotFound post_id), st)

/-- `GET /api/posts/search` (`search_posts`): keeps the posts whose lowered
title/content contain the lowered query, a falsy (absent or empty) query
matching everything. Collection order is preserved; the handler always
answers 200. -/
def search_posts (st : AppState) (title_param : Option String) (content_param : Option String) :
    List Post :=
  let title_query := (title_param.getD "").toLower
  let content_query := (content_param.getD "").toLower
  st.posts.filter (fun post =>
    (if title_query ≠ "" then strContains post.title.toLower title_query else true) &&
    (if content_query ≠ "" then strContains post.content.toLower content_query else true))

/-- The case-insensitive sort key used by `get_posts` for a given field. -/
def keyOf (field : String) (p : Post) : String := (fieldVal p field).toLower

/-- The match predicate as the spec words it: (title filter empty OR title
contains it) AND (content filter empty OR content contains it). -/
def claimMatches (tq cq : String) (p : Post) : Bool :=
  ((tq == "") || strContains p.title.toLower tq) &&
  ((cq == "") || strContains p.content.toLower cq)

/-- Replaying a sequence of list queries, threading the state. -/
def run_list_queries (st : AppState) : List (Option String × Option String) → AppState
  | [] => st
  | q :: qs => run_list_queries (get_posts st q.1 q.2).2 qs

/-! ## Helper lemmas -/

theorem get_posts_state_id (st : AppState) (s d : Option String) : (get_posts st s d).2 = st := by
  simp only [get_posts]
  split
  · rfl
  · split <;> rfl

theorem run_list_queries_id (st : AppState) (qs : List (Option String × Option String)) :
    run_list_queries st qs = st := by
  induction qs generalizing st with
  | nil => rfl
  | cons q qs ih => rw [run_list_queries, get_posts_state_id, ih]

theorem searchBranch_eq (q s : String) :
    (if q ≠ "" then strContains s q else true) = ((q == "") || strContains s q) := by
  by_cases h : q = ""
  · simp [h]
  · simp [h, beq_eq_false_iff_ne.mpr h]

/-! ## Claim theorems -/

/-- C1: a create request supplying both title and content assigns
`id = next_id`, appends the record to the end of `posts`, bumps the counter
by exactly 1 and returns the created record; on the fresh instance the
counter starts at 3, so assigned ids are 3, 4, 5, ... -/
theorem create_post_success_spec (st : AppState) (t c : String) :
    create_post st (some { title := some t, content := some c }) =
      (.ok { id := st.next_id, title := t, content := c },
       { posts := st.posts ++ [{ id := st.next_id, title := t, content := c }],
         next_id := st.next_id + 1 }) ∧
    initialState.next_id = 3 :=
  ⟨rfl, rfl⟩

/-- C3: a create request with title and/or content absent (an absent or
malformed body counting as both absent) fails with `MissingFields` listing
exactly the absent names, title before content, and changes neither the
collection nor the counter; empty-string values do not count as missing. -/
theorem create_post_missing_spec (st : AppState) (t c : String) :
    create_post st none = (.error (.MissingFields ["title", "content"]), st) ∧
    create_post st (some { title := none, content := none }) =
      (.error (.MissingFields ["title", "content"]), st) ∧
    create_post st (some { title := some t, content := none }) =
      (.error (.MissingFields ["content"]), st) ∧
    create_post st (some { title := none, content := some c }) =
      (.error (.MissingFields ["title"]), st) ∧
    create_post st (some { title := some "", content := some "" }) =
      (.ok { id := st.next_id, title := "", content := "" },
       { posts := st.posts ++ [{ id := st.next_id, title := "", content := "" }],
         next_id := st.next_id + 1 }) :=
  ⟨rfl, rfl, rfl, rfl, rfl⟩

/-- C4: an update request with an absent/malformed body fails with
`InvalidBody` for every state and every id — in particular also when the id
does not exist — and leaves the state unchanged. -/
theorem update_post_invalid_body_spec (st : AppState) (post_id : Nat) :
    update_post st post_id none = (.error .InvalidBody, st) :=
  rfl

/-- C9: a list request never mutates the stored collection: each query hands
back the state unchanged, any sequence of sorted list queries leaves the state
fixed, and a subsequent unsorted list returns the posts in insertion order. -/
theorem get_posts_no_mutation_spec (st : AppState) :
    (∀ s d, (get_posts st s d).2 = st) ∧
    (∀ qs, run_list_queries st qs = st) ∧
    (get_posts st none none).1 = .ok st.posts :=
  ⟨fun s d => get_posts_state_id st s d, fun qs => run_list_queries_id st qs, rfl⟩

/-- C10: a list request with `sort` present but equal to the empty string
behaves exactly like one with `sort` absent: it is not rejected as
`InvalidSortField`, the posts come back unsorted, and `direction` is still
validated. -/
theorem get_posts_empty_sort_spec (st : AppState) (d : Option String) :
    get_posts st (some "") d = get_posts st none d ∧
    get_posts st (some "") none = (.ok st.posts, st) ∧
    get_posts st (some "") (some "sideways") = (.error .InvalidDirection, st) :=
  ⟨rfl, rfl, rfl⟩

/-- C7: search returns exactly the posts matching the spec's predicate —
(title filter empty or title contains it case-insensitively) and (content
filter empty or content contains it case-insensitively), absent filters
defaulting to empty — in insertion order (a sublist of the collection), and
always succeeds (an empty list is a valid result, never an error). -/
theorem search_posts_filter_spec (st : AppState) (tp cp : Option String) :
    search_posts st tp cp =
      st.posts.filter (claimMatches ((tp.getD "").toLower) ((cp.getD "").toLower)) ∧
    List.Sublist (search_posts st tp cp) st.posts := by
  constructor
  · simp only [search_posts]
    apply List.filter_congr
    intro p _
    rw [searchBranch_eq, searchBranch_eq, claimMatches]
  · simp only [search_posts]
    exact List.filter_sublist _

theorem find_first_match (i : Nat) (p : Post) (hid : p.id = i) :
    ∀ (l₁ l₂ : List Post), (∀ q ∈ l₁, q.id ≠ i) →
      (l₁ ++ p :: l₂).find? (fun q => q.id == i) = some p := by
  intro l₁
  induction l₁ with
  | nil =>
    intro l₂ _
    exact List.find?_cons_of_pos _ (by simp [hid])
  | cons a as ih =>
    intro l₂ h
    have ha : a.id ≠ i := h a (by simp)
    simp only [List.cons_append]
    rw [List.find?_cons_of_neg _ (by simpa using ha)]
    exact ih l₂ (fun q hq => h q (by simp [hq]))

theorem filter_out_id (i : Nat) (p : Post) (hid : p.id = i) (l₁ l₂ : List Post)
    (h : ∀ q ∈ l₁ ++ l₂, q.id ≠ i) :
    (l₁ ++ p :: l₂).filter (fun q => !(q.id == i)) = l₁ ++ l₂ := by
  have h1 : l₁.filter (fun q => !(q.id == i)) = l₁ :=
    List.filter_eq_self.mpr (fun a ha => by simpa using h a (List.mem_append_left _ ha))
  have h2 : l₂.filter (fun q => !(q.id == i)) = l₂ :=
    List.filter_eq_self.mpr (fun a ha => by simpa using h a (List.mem_append_right _ ha))
  simp [List.filter_append, List.filter_cons, hid, h1, h2]

/-- C5: deleting an absent id fails with `PostNotFound` carrying the id and
changes nothing; deleting a present id (unique in the collection) removes
exactly that record, keeps the others in order, leaves the counter alone,
and a second delete of the same id then yields `PostNotFound`. -/
theorem delete_post_spec (st : AppState) (i : Nat) :
    ((∀ p ∈ st.posts, p.id ≠ i) → delete_post st i = (.error (.PostNotFound i), st)) ∧
    (∀ (l₁ : List Post) (p : Post) (l₂ : List Post),
      st.posts = l₁ ++ p :: l₂ → p.id = i → (∀ q ∈ l₁ ++ l₂, q.id ≠ i) →
      delete_post st i = (.ok i, { posts := l₁ ++ l₂, next_id := st.next_id }) ∧
      delete_post { posts := l₁ ++ l₂, next_id := st.next_id } i =
        (.error (.PostNotFound i), { posts := l₁ ++ l₂, next_id := st.next_id })) := by
  constructor
  · intro h
    have hf : st.posts.find? (fun post => post.id == i) = none :=
      List.find?_eq_none.mpr (fun x hx => by simpa using h x hx)
    simp [delete_post, hf]
  · intro l₁ p l₂ hsplit hid h
    have hf : st.posts.find? (fun post => post.id == i) = some p := by
      rw [hsplit]
      exact find_first_match i p hid l₁ l₂ (fun q hq => h q (List.mem_append_left _ hq))
    have hf2 : (l₁ ++ l₂).find? (fun post => post.id == i) = none :=
      List.find?_eq_none.mpr (fun x hx => by simpa using h x hx)
    constructor
    · simp only [delete_post, hf]
      rw [hsplit, filter_out_id i p hid l₁ l₂ h]
    · simp only [delete_post]
      rw [hf2]

/-- Witness for C5 at concrete inputs: deleting id 99 on the seed state
fails; deleting id 1 removes exactly the first seed post and deleting 1
again fails. -/
theorem delete_post_spec_witness :
    delete_post initialState 99 = (.error (.PostNotFound 99), initialState) ∧
    delete_post initialState 1 =
      (.ok 1, { posts := [{ id := 2, title := "Second post", content := "This is the second post." }],
                next_id := 3 }) ∧
    delete_post { posts := [{ id := 2, title := "Second post", content := "This is the second post." }],
                  next_id := 3 } 1 =
      (.error (.PostNotFound 1),
       { posts := [{ id := 2, title := "Second post", content := "This is the second post." }],
         next_id := 3 }) := by
  refine ⟨(delete_post_spec initialState 99).1 (by decide), ?_⟩
  have h := (delete_post_spec initialState 1).2
    [] { id := 1, title := "First post", content := "This is the first post." }
    [{ id := 2, title := "Second post", content := "This is the second post." }]
    rfl rfl (by decide)
  exact h

theorem updateLoop_first (i : Nat) (d : Body) (p : Post) (hid : p.id = i) :
    ∀ (l₁ l₂ : List Post), (∀ q ∈ l₁, q.id ≠ i) →
      updateLoop i d (l₁ ++ p :: l₂) =
        (some { id := p.id, title := d.title.getD p.title, content := d.content.getD p.content },
         l₁ ++ { id := p.id, title := d.title.getD p.title,
                 content := d.content.getD p.content } :: l₂) := by
  intro l₁
  induction l₁ with
  | nil =>
    intro l₂ _
    simp [updateLoop, hid]
  | cons a as ih =>
    intro l₂ h
    have ha : (a.id == i) = false := by simpa using h a (by simp)
    simp [updateLoop, ha, ih l₂ (fun q hq => h q (by simp [hq]))]

/-- C6: updating a present id with a valid object body overwrites exactly the
supplied fields (`getD` keeps the stored value when a field is absent), never
alters the id, returns the post's full new state, and with an empty-object
body returns the post and the state unchanged. -/
theorem update_post_found_spec (st : AppState) (i : Nat) (d : Body)
    (l₁ : List Post) (p : Post) (l₂ : List Post)
    (hsplit : st.posts = l₁ ++ p :: l₂) (hid : p.id = i)
    (hfirst : ∀ q ∈ l₁, q.id ≠ i) :
    update_post st i (some d) =
      (.ok { id := p.id, title := d.title.getD p.title, content := d.content.getD p.content },
       { posts := l₁ ++ { id := p.id, title := d.title.getD p.title,
                          content := d.content.getD p.content } :: l₂,
         next_id := st.next_id }) ∧
    update_post st i (some { title := none, content := none }) = (.ok p, st) := by
  constructor
  · have hloop := updateLoop_first i d p hid l₁ l₂ hfirst
    simp only [update_post, hsplit, hloop]
  · have hloop := updateLoop_first i { title := none, content := none } p hid l₁ l₂ hfirst
    simp only [Option.getD_none] at hloop
    simp only [update_post, hsplit, hloop]
    rw [show ({ id := p.id, title := p.title, content := p.content } : Post) = p from rfl]
    rw [← hsplit]

/-- Witness for C6 at concrete inputs: updating seed post 2 with only a new
content changes content, keeps title and id; an empty body returns post 2
unchanged. -/
theorem update_post_found_spec_witness :
    update_post initialState 2
        (some { title := none, content := some "Updated" }) =
      (.ok { id := 2, title := "Second post", content := "Updated" },
       { posts := [{ id := 1, title := "First post", content := "This is the first post." },
                   { id := 2, title := "Second post", content := "Updated" }],
         next_id := 3 }) ∧
    update_post initialState 2 (some { title := none, content := none }) =
      (.ok { id := 2, title := "Second post", content := "This is the second post." },
       initialState) :=
  update_post_found_spec initialState 2 { title := none, content := some "Updated" }
    [{ id := 1, title := "First post", content := "This is the first post." }]
    { id := 2, title := "Second post", content := "This is the second post." }
    [] rfl rfl (by decide)

theorem pyLe_trans (key : Post → String) (rev : Bool) :
    ∀ a b c, pyLe key rev a b → pyLe key rev b c → pyLe key rev a c := by
  intro a b c hab hbc
  cases rev with
  | false =>
    simp only [pyLe, Bool.false_eq_true, if_false, decide_eq_true_eq] at hab hbc ⊢
    exact le_trans hab hbc
  | true =>
    simp only [pyLe, if_true, decide_eq_true_eq] at hab hbc ⊢
    exact le_trans hbc hab

theorem pyLe_total (key : Post → String) (rev : Bool) :
    ∀ a b, pyLe key rev a b || pyLe key rev b a := by
  intro a b
  cases rev <;> simp [pyLe] <;> exact le_total _ _

theorem pysorted_perm (l : List Post) (key : Post → String) (rev : Bool) :
    (pysorted l key rev).Perm l :=
  List.mergeSort_perm l (pyLe key rev)

theorem pysorted_pairwise (l : List Post) (key : Post → String) (rev : Bool) :
    (pysorted l key rev).Pairwise (fun a b => pyLe key rev a b) :=
  List.sorted_mergeSort (pyLe_trans key rev) (pyLe_total key rev) l

theorem pysorted_stable (l : List Post) (key : Post → String) (rev : Bool) (k : String) :
    (pysorted l key rev).filter (fun p => key p == k) = l.filter (fun p => key p == k) := by
  have hpw : (l.filter (fun p => key p == k)).Pairwise (fun a b => pyLe key rev a b) := by
    apply List.pairwise_of_forall_mem_list
    intro a ha b hb
    have hka : key a = k := by simpa using (List.mem_filter.mp ha).2
    have hkb : key b = k := by simpa using (List.mem_filter.mp hb).2
    cases rev <;> simp [pyLe, hka, hkb]
  have hsub : List.Sublist (l.filter (fun p => key p == k)) (pysorted l key rev) :=
    List.sublist_mergeSort (pyLe_trans key rev) (pyLe_total key rev) hpw (List.filter_sublist l)
  have hsub2 : List.Sublist (l.filter (fun p => key p == k))
      ((pysorted l key rev).filter (fun p => key p == k)) := by
    have hstep := hsub.filter (fun p => key p == k)
    rwa [List.filter_eq_self.mpr (fun a ha => (List.mem_filter.mp ha).2)] at hstep
  have hperm : ((pysorted l key rev).filter (fun p => key p == k)).Perm
      (l.filter (fun p => key p == k)) :=
    (pysorted_perm l key rev).filter _
  exact (hsub2.eq_of_length hperm.length_eq.symm).symm

theorem pysorted_props (posts : List Post) (key : Post → String) (rev : Bool) :
    (pysorted posts key rev).Perm posts ∧
    ((pysorted posts key rev).map Post.id).Perm (posts.map Post.id) ∧
    (pysorted posts key rev).Pairwise
      (fun a b => if rev then key b ≤ key a else key a ≤ key b) ∧
    ∀ k, (pysorted posts key rev).filter (fun p => key p == k) =
      posts.filter (fun p => key p == k) := by
  refine ⟨pysorted_perm _ _ _, (pysorted_perm _ _ _).map _, ?_, fun k => pysorted_stable _ _ _ k⟩
  cases rev with
  | false =>
    refine (pysorted_pairwise posts key false).imp ?_
    intro a b h
    simpa [pyLe] using h
  | true =>
    refine (pysorted_pairwise posts key true).imp ?_
    intro a b h
    simpa [pyLe] using h

/-- C2: for every valid `sort` in {title, content} and `direction` in
{asc, desc} (absent defaulting to asc), listing returns a permutation of the
stored posts (same multiset of ids) ordered by case-insensitive comparison of
the chosen field in the chosen direction, and the sort is stable: for every
key value, the posts carrying it appear in their stored relative order. -/
theorem get_posts_sorted_spec (st : AppState) (f : String) (dparam : Option String)
    (hf : f = "title" ∨ f = "content")
    (hd : dparam = none ∨ dparam = some "asc" ∨ dparam = some "desc") :
    ∃ l, (get_posts st (some f) dparam).1 = .ok l ∧
      l.Perm st.posts ∧
      (l.map Post.id).Perm (st.posts.map Post.id) ∧
      l.Pairwise (fun a b =>
        if dparam = some "desc" then keyOf f b ≤ keyOf f a else keyOf f a ≤ keyOf f b) ∧
      ∀ k, l.filter (fun p => keyOf f p == k) = st.posts.filter (fun p => keyOf f p == k) := by
  rcases hf with hf | hf <;> subst hf <;> rcases hd with hd | hd | hd <;> subst hd
  · refine ⟨pysorted st.posts (keyOf "title") false, rfl, ?_⟩
    have h := pysorted_props st.posts (keyOf "title") false
    simp only [Bool.false_eq_true, if_false] at h
    simpa only [eq_false (by decide : ¬ ((none : Option String) = some "desc")), if_false] using h
  · refine ⟨pysorted st.posts (keyOf "title") false, rfl, ?_⟩
    have h := pysorted_props st.posts (keyOf "title") false
    simp only [Bool.false_eq_true, if_false] at h
    simpa only [eq_false (by decide : ¬ ((some "asc" : Option String) = some "desc")),
      if_false] using h
  · refine ⟨pysorted st.posts (keyOf "title") true, rfl, ?_⟩
    have h := pysorted_props st.posts (keyOf "title") true
    simp only [if_true] at h
    simpa only [eq_true (rfl : (some "desc" : Option String) = some "desc"), if_true] using h
  · refine ⟨pysorted st.posts (keyOf "content") false, rfl, ?_⟩
    have h := pysorted_props st.posts (keyOf "content") false
    simp only [Bool.false_eq_true, if_false] at h
    simpa only [eq_false (by decide : ¬ ((none : Option String) = some "desc")), if_false] using h
  · refine ⟨pysorted st.posts (keyOf "content") false, rfl, ?_⟩
    have h := pysorted_props st.posts (keyOf "content") false
    simp only [Bool.false_eq_true, if_false] at h
    simpa only [eq_false (by decide : ¬ ((some "asc" : Option String) = some "desc")),
      if_false] using h
  · refine ⟨pysorted st.posts (keyOf "content") true, rfl, ?_⟩
    have h := pysorted_props st.posts (keyOf "content") true
    simp only [if_true] at h
    simpa only [eq_true (rfl : (some "desc" : Option String) = some "desc"), if_true] using h

/-- Witness for C2 at a concrete input: sorting the seed posts by title
descending. -/
theorem get_posts_sorted_spec_witness :
    (("title" : String) = "title" ∨ ("title" : String) = "content") ∧
    ((some "desc" : Option String) = none ∨ (some "desc" : Option String) = some "asc" ∨
      (some "desc" : Option String) = some "desc") ∧
    ∃ l, (get_posts initialState (some "title") (some "desc")).1 = .ok l ∧
      l.Perm initialState.posts ∧
      (l.map Post.id).Perm (initialState.posts.map Post.id) ∧
      l.Pairwise (fun a b =>
        if (some "desc" : Option String) = some "desc" then keyOf "title" b ≤ keyOf "title" a
        else keyOf "title" a ≤ keyOf "title" b) ∧
      ∀ k, l.filter (fun p => keyOf "title" p == k) =
        initialState.posts.filter (fun p => keyOf "title" p == k) :=
  ⟨Or.inl rfl, Or.inr (Or.inr rfl),
   get_posts_sorted_spec initialState "title" (some "desc") (Or.inl rfl) (Or.inr (Or.inr rfl))⟩

/-- C8 counterexample: with `?sort=&direction=sideways` the sort parameter is
present and its value `""` lies outside {title, content}, yet the handler
answers `InvalidDirection`, not `InvalidSortField` — Python truthiness lets an
empty-string sort skip the sort-field check. -/
theorem get_posts_validation_counterexample :
    (some "" : Option String) ≠ none ∧
    ("" ∉ (["title", "content"] : List String)) ∧
    get_posts initialState (some "") (some "sideways") =
      (.error .InvalidDirection, initialState) ∧
    ApiError.InvalidDirection ≠ ApiError.InvalidSortField := by
  refine ⟨by simp, by decide, rfl, by decide⟩

/-- C8 (amended): sort is validated before direction — a *non-empty* sort
value outside {title, content} fails with `InvalidSortField` whatever the
direction (also an invalid one), while an invalid direction with an absent,
empty-string, or valid sort fails with `InvalidDirection`. -/
theorem get_posts_validation_order_spec (st : AppState) :
    (∀ s dparam, s ≠ "" → s ∉ (["title", "content"] : List String) →
      get_posts st (some s) dparam = (.error .InvalidSortField, st)) ∧
    (∀ sortp d,
      (sortp = none ∨ sortp = some "" ∨ sortp = some "title" ∨ sortp = some "content") →
      d ∉ (["asc", "desc"] : List String) →
      get_posts st sortp (some d) = (.error .InvalidDirection, st)) := by
  constructor
  · intro s dparam hne hout
    have h1 : s ≠ "title" := by intro h; exact hout (by simp [h])
    have h2 : s ≠ "content" := by intro h; exact hout (by simp [h])
    simp [get_posts, strTruthy, beq_eq_false_iff_ne.mpr hne,
      beq_eq_false_iff_ne.mpr h1, beq_eq_false_iff_ne.mpr h2]
    intro h
    exact absurd (h h1) h2
  · intro sortp d hs hd
    have h1 : d ≠ "asc" := by intro h; exact hd (by simp [h])
    have h2 : d ≠ "desc" := by intro h; exact hd (by simp [h])
    rcases hs with hs | hs | hs | hs <;> subst hs <;>
      simp [get_posts, strTruthy, beq_eq_false_iff_ne.mpr h1, beq_eq_false_iff_ne.mpr h2] <;>
      exact ⟨h1, h2⟩

/-- Witness for the amended C8 at concrete inputs: `sort=bogus` (with an
invalid direction too) is rejected as `InvalidSortField`; `sort=title` with
`direction=up` is rejected as `InvalidDirection`. -/
theorem get_posts_validation_order_spec_witness :
    get_posts initialState (some "bogus") (some "sideways") =
      (.error .InvalidSortField, initialState) ∧
    get_posts initialState (some "title") (some "up") =
      (.error .InvalidDirection, initialState) :=
  ⟨(get_posts_validation_order_spec initialState).1 "bogus" (some "sideways")
      (by decide) (by decide),
   (get_posts_validation_order_spec initialState).2 (some "title") "up"
      (Or.inr (Or.inr (Or.inl rfl))) (by decide)⟩
